import Mathlib

/-!
Verification of the pylifemap aggregation module (`src/pylifemap/aggregations.py`).

The module aggregates observation tables along a fixed taxonomy tree.  The
dataframe engine (polars) is external to the repository; its primitives
(left join, `explode`, `group_by`/`agg`, `pivot`, `sort`, `concat`) are given
their documented semantics here over lists of rows:

* a left join against the ancestor table attaches the matching
  `pylifemap_ascend` list, or null when the key is absent;
* `explode` of a null or empty list produces a single row with a null value,
  otherwise one row per element;
* `group_by` groups null keys like any other key; group order is
  normalised to first occurrence (the engine leaves it unspecified; the
  numeric and count pipelines sort afterwards, which makes the row order
  canonical because the keys of a grouped frame are distinct);
* `sort` on the taxid column is ascending with nulls first.

Taxids are modelled as unbounded integers; the engine cast to `Int32`
is the explicit wraparound `toInt32`.  Column values of the aggregated
column are rationals.  Column *names* are carried separately from row data
so that the validation behaviour (missing columns, reserved names) can be
stated; the identifier column and the aggregated column are assumed to be
distinct columns of the table.
-/

set_option maxRecDepth 4096

open scoped List

deriving instance DecidableEq for Except

/-- Errors surfaced to the caller: `ValueError`/`TypeError` raised by the
module itself, and the engine errors (`ColumnNotFoundError`,
`DuplicateError`) raised by polars when an expression names a missing or
duplicated column. -/
inductive PyError where
  | valueError (msg : String)
  | typeError (msg : String)
  | columnNotFound (col : String)
  | duplicateColumn (col : String)
deriving DecidableEq, Repr

/-- Whether an error is a Python `ValueError`. -/
def PyError.isValueError : PyError → Bool
  | .valueError _ => true
  | _ => false

/-- Modelled from the spec: `LMDATA` (defined in `pylifemap/utils.py`, outside
`src/`) is the static ancestor-mapping table, keyed by `taxid`, whose
`pylifemap_ascend` column holds the ordered list of ancestor taxids up to the
root.  It is modelled as a partial map from a taxid to its ancestor list;
`none` means the taxid is absent from the table. -/
abbrev LMap := Int → Option (List Int)

/-- The ancestor list of `x` in the mapping (empty when `x` is absent or the
mapping stores an empty list; a left join followed by `explode` treats those
two cases identically). -/
def ascList (lm : LMap) (x : Int) : List Int := (lm x).getD []

/-- Well-formedness of the ancestor mapping, as the spec describes it: a
node is not its own ancestor, and an ancestor list has no duplicates. -/
def LMWellFormed (lm : LMap) : Prop :=
  ∀ x : Int, x ∉ ascList lm x ∧ (ascList lm x).Nodup

/-- The engine cast of an integer to `Int32`: two's-complement wraparound
into `[-2^31, 2^31)`. -/
def toInt32 (n : Int) : Int := (n + 2 ^ 31) % 2 ^ 32 - 2 ^ 31

/-- `ensure_column_exists`: raises `ValueError` naming the column when it is
not among the frame's columns. -/
def ensure_column_exists (cols : List String) (column : String) :
    Except PyError Unit :=
  if column ∈ cols then .ok ()
  else .error (.valueError (column ++ " is not a column of the DataFrame."))

/-- Cast the taxid component of every row to `Int32` (the row payload is
untouched). -/
def ensure_int32_rows {β : Type} (rows : List (Int × β)) : List (Int × β) :=
  rows.map (fun r => (toInt32 r.1, r.2))

/-- Input table for `aggregate_num`: the column names of the frame, and per
row the value of the identifier column and of the aggregated column. -/
structure NumDF where
  cols : List String
  rows : List (Int × Rat)

/-- `ensure_int32` on a numeric table: `with_columns(col(taxid_col).cast(Int32))`.
The engine raises `ColumnNotFoundError` when the column is absent. -/
def ensure_int32_num (d : NumDF) (taxid_col : String) : Except PyError NumDF :=
  if taxid_col ∈ d.cols then .ok ⟨d.cols, ensure_int32_rows d.rows⟩
  else .error (.columnNotFound taxid_col)

/-- Input table for `aggregate_count`: column names and the identifier value
of each row (the pipeline projects to the taxid column only). -/
structure CountDF where
  cols : List String
  rows : List Int

/-- `ensure_int32` on a count table. -/
def ensure_int32_count (d : CountDF) (taxid_col : String) :
    Except PyError CountDF :=
  if taxid_col ∈ d.cols then .ok ⟨d.cols, d.rows.map toInt32⟩
  else .error (.columnNotFound taxid_col)

/-- Keys produced for one row by the left join on the ancestor table followed
by `explode("pylifemap_ascend")`: one key per ancestor, or a single null key
when the row's taxid has no ancestors (absent from the table or mapped to an
empty list). -/
def rowKeys (lm : LMap) (x : Int) : List (Option Int) :=
  if ascList lm x = [] then [none] else (ascList lm x).map some

/-- The exploded join: every row paired with each of its `rowKeys`. -/
def ascRows {β : Type} (lm : LMap) (rows : List (Int × β)) :
    List (Option Int × β) :=
  rows.flatMap (fun r => (rowKeys lm r.1).map (fun k => (k, r.2)))

/-- The self rows: `with_columns(col("taxid").alias("pylifemap_ascend"))`,
each row keyed by its own taxid. -/
def selfRows {β : Type} (rows : List (Int × β)) : List (Option Int × β) :=
  rows.map (fun r => (some r.1, r.2))

/-- `pl.concat([res, obs])`: the exploded ancestor rows followed by the self
rows. -/
def concatRows {β : Type} (lm : LMap) (rows : List (Int × β)) :
    List (Option Int × β) :=
  ascRows lm rows ++ selfRows rows

/-- The payloads of the rows of `l` whose key is `k` (a group's contents). -/
def groupVals {β : Type} (k : Option Int) (l : List (Option Int × β)) :
    List β :=
  (l.filter (fun p => p.1 == k)).map Prod.snd

/-- The distinct keys of `l`, in order of first occurrence. -/
def groupKeys {β : Type} (l : List (Option Int × β)) : List (Option Int) :=
  (l.map Prod.fst).dedup

/-- `group_by` followed by `agg`: one row per distinct key, carrying the
aggregation of the group's payloads. -/
def groupAgg {β γ : Type} (agg : List β → γ) (l : List (Option Int × β)) :
    List (Option Int × γ) :=
  (groupKeys l).map (fun k => (k, agg (groupVals k l)))

/-- The engine's ascending order on the taxid column: null sorts first. -/
def keyLE : Option Int → Option Int → Bool
  | none, _ => true
  | some _, none => false
  | some a, some b => a ≤ b

/-- `sort("taxid")`: sort the rows by their key, nulls first. -/
def sortRows {γ : Type} (l : List (Option Int × γ)) : List (Option Int × γ) :=
  List.insertionSort (fun a b => keyLE a.1 b.1 = true) l

/-- Look up the row with key `k` and return its payload. -/
def lookupKey {γ : Type} (k : Option Int) (l : List (Option Int × γ)) :
    Option γ :=
  (l.find? (fun p => p.1 == k)).map Prod.snd

/-- The values of a group sorted ascending (polars reductions other than the
sum are order independent; sorting makes that explicit). -/
def sortedQ (l : List Rat) : List Rat := List.insertionSort (· ≤ ·) l

/-- `pl.sum` over a group. -/
def qsum (l : List Rat) : Rat := l.sum

/-- `pl.mean` over a group. -/
def qmean (l : List Rat) : Rat := l.sum / l.length

/-- `pl.min` over a group: smallest element (0 on an empty group, which the
pipeline never produces since every key comes from a row). -/
def qmin (l : List Rat) : Rat := (sortedQ l).headD 0

/-- `pl.max` over a group. -/
def qmax (l : List Rat) : Rat := (sortedQ l).getLastD 0

/-- `pl.median` over a group: middle element of the sorted values, or the
mean of the two middle elements when the group has even size. -/
def qmedian (l : List Rat) : Rat :=
  let s := sortedQ l
  let n := s.length
  if n = 0 then 0
  else if n % 2 = 1 then s.getD (n / 2) 0
  else (s.getD (n / 2 - 1) 0 + s.getD (n / 2) 0) / 2

/-- The keys of the aggregation-function dictionary of `aggregate_num`. -/
def fnAllowed : List String := ["sum", "mean", "min", "max", "median"]

/-- The dictionary mapping an aggregation-function name to its reducer
(`pl.sum`, `pl.mean`, `pl.min`, `pl.max`, `pl.median`); the catch-all branch
is never reached because `aggregate_num` rejects other names first. -/
def aggFn : String → List Rat → Rat
  | "sum" => qsum
  | "mean" => qmean
  | "min" => qmin
  | "max" => qmax
  | "median" => qmedian
  | _ => fun _ => 0

/-- Message of the `ValueError` raised when the target column is the
reserved name `taxid`. -/
def reservedMsg : String :=
  "Cannot aggregate on the taxid column, please make a copy and rename it before."

/-- Message of the `ValueError` raised for an unknown aggregation function;
it lists the allowed function names. -/
def fnErrMsg : String :=
  "fn value must be one of " ++ String.intercalate ", " fnAllowed ++ "."

/-- The join/explode/self-union/group/aggregate/sort pipeline shared by the
numeric entry point. -/
def numPipeline (lm : LMap) (agg : List Rat → Rat) (rows : List (Int × Rat)) :
    List (Option Int × Rat) :=
  sortRows (groupAgg agg (concatRows lm rows))

/-- `aggregate_num`: validate the two columns, cast the identifier column to
`Int32`, reject a target column named `taxid` and an unknown aggregation
function, then run the pipeline. -/
def aggregate_num (lm : LMap) (d : NumDF) (column fn taxid_col : String) :
    Except PyError (List (Option Int × Rat)) :=
  match ensure_column_exists d.cols column with
  | .error e => .error e
  | .ok _ =>
    match ensure_column_exists d.cols taxid_col with
    | .error e => .error e
    | .ok _ =>
      match ensure_int32_num d taxid_col with
      | .error e => .error e
      | .ok d1 =>
        if column = "taxid" then .error (.valueError reservedMsg)
        else if fn ∈ fnAllowed then .ok (numPipeline lm (aggFn fn) d1.rows)
        else .error (.valueError fnErrMsg)

/-- The count pipeline: same expansion, grouped with `len`. -/
def countPipeline (lm : LMap) (taxids : List Int) : List (Option Int × Nat) :=
  sortRows (groupAgg List.length (concatRows lm (taxids.map (fun t => (t, t)))))

/-- `aggregate_count`: validate the identifier column, cast it to `Int32`,
then count rows per node; `result_col` only names the count column and does
not affect the row data. -/
def aggregate_count (lm : LMap) (d : CountDF) (result_col taxid_col : String) :
    Except PyError (List (Option Int × Nat)) :=
  match ensure_column_exists d.cols taxid_col with
  | .error e => .error e
  | .ok _ =>
    match ensure_int32_count d taxid_col with
    | .error e => .error e
    | .ok d1 => .ok (countPipeline lm d1.rows)

/-- Input table for `aggregate_cat`: column names and per row the identifier
value and the categorical value. -/
structure CatDF where
  cols : List String
  rows : List (Int × String)

/-- A value of the output of `aggregate_cat`: either the per-level count
structure produced by `pivot` and `preprocess_counts` (the JSON encoding of
the struct is abstracted to its ordered field list), or the raw categorical
value of a retained leaf row. -/
inductive CatVal where
  | dist (fields : List (String × Nat))
  | cat (c : String)
deriving DecidableEq, Repr

/-- A row of the output of `aggregate_cat`: the taxid, the value column
(named after the categorical column), and the `pylifemap_count_type`
marker. -/
structure CatRow where
  taxid : Option Int
  value : CatVal
  marker : String
deriving DecidableEq, Repr

/-- `ensure_int32` on a categorical table. -/
def ensure_int32_cat (d : CatDF) (taxid_col : String) : Except PyError CatDF :=
  if taxid_col ∈ d.cols then .ok ⟨d.cols, ensure_int32_rows d.rows⟩
  else .error (.columnNotFound taxid_col)

/-- `d.select(col(taxid_col).alias("taxid"), col(column))`: the engine raises
`ColumnNotFoundError` for a missing column and `DuplicateError` when the two
output columns would both be named `taxid`. -/
def catSelect (d : CatDF) (column taxid_col : String) : Except PyError CatDF :=
  if taxid_col ∈ d.cols then
    if column ∈ d.cols then
      if column = "taxid" then .error (.duplicateColumn "taxid")
      else .ok ⟨["taxid", column], d.rows⟩
    else .error (.columnNotFound column)
  else .error (.columnNotFound taxid_col)

/-- The exploded join of the categorical pipeline: each row paired with each
ancestor key; there is no self-union step in `aggregate_cat`. -/
def catExploded (lm : LMap) (rows : List (Int × String)) :
    List (Option Int × String) :=
  ascRows lm rows

/-- `d.get_column(column).unique()`: the distinct categorical levels of the
input, in order of first occurrence. -/
def catLevels (rows : List (Int × String)) : List String :=
  (rows.map Prod.snd).dedup

/-- The `count`-tagged output rows of `aggregate_cat`: group the exploded
join by (ancestor, category) and count, pivot the categories into columns
filling missing combinations with 0, then encode the per-level counts as a
single struct value tagged `count` (`preprocess_counts`). -/
def catCountRows (lm : LMap) (rows : List (Int × String)) : List CatRow :=
  (groupKeys (catExploded lm rows)).map (fun k =>
    ⟨k,
      .dist ((catLevels rows).map
        (fun c => (c, (groupVals k (catExploded lm rows)).count c))),
      "count"⟩)

/-- The retained leaf rows: `d.select([taxid_col, column])` tagged `leaf`.
After the initial select the frame's columns are `taxid` and `column`, so
the select succeeds only when `taxid_col` is literally `taxid`; otherwise
the engine raises (`DuplicateError` when `taxid_col` picks the categorical
column twice, `ColumnNotFoundError` otherwise). -/
def catLeaves (d : CatDF) (column taxid_col : String) :
    Except PyError (List CatRow) :=
  if taxid_col = "taxid" then
    .ok (d.rows.map (fun r => ⟨some r.1, .cat r.2, "leaf"⟩))
  else if taxid_col = column then .error (.duplicateColumn taxid_col)
  else .error (.columnNotFound taxid_col)

/-- `aggregate_cat`: cast the identifier column (no `ensure_column_exists`
validation is performed by this entry point), project to (taxid, category),
build the pivoted per-level counts, and when `keep_leaves` is set append the
`leaf`-tagged raw rows after the aggregated rows
(`pl.concat([res, leaves], how="vertical_relaxed")`). -/
def aggregate_cat (lm : LMap) (d : CatDF) (column : String)
    (keep_leaves : Bool) (taxid_col : String) : Except PyError (List CatRow) :=
  match ensure_int32_cat d taxid_col with
  | .error e => .error e
  | .ok d1 =>
    match catSelect d1 column taxid_col with
    | .error e => .error e
    | .ok d2 =>
      let res := catCountRows lm d2.rows
      if keep_leaves then
        match catLeaves d2 column taxid_col with
        | .error e => .error e
        | .ok leaves => .ok (res ++ leaves)
      else .ok res

/-- The synthetic three-level tree of the spec: `1` is the root, `2` and `3`
its children (`A` and `B`), `4` and `5` the leaves of `A`, `6` the leaf of
`B`; each taxid is mapped to its ancestor list up to the root. -/
def synthLM : LMap := fun t =>
  if t = 1 then some []
  else if t = 2 then some [1]
  else if t = 3 then some [1]
  else if t = 4 then some [2, 1]
  else if t = 5 then some [2, 1]
  else if t = 6 then some [3, 1]
  else none

/-- The observation rows of the synthetic tree: leaf 4 carries 2, leaf 5
carries 3, leaf 6 carries 5. -/
def synthRows : List (Int × Rat) := [(4, 2), (5, 3), (6, 5)]

/-- The synthetic observation table. -/
def synthNum : NumDF := ⟨["taxid", "value"], synthRows⟩

/-- Whether a (cast) input row with taxid `x` contributes to node `t`:
either it is `t` itself or `t` is among its ancestors. -/
def inSubtree (lm : LMap) (t x : Int) : Bool :=
  x == t || decide (t ∈ ascList lm x)

/-- Whether a (cast) input row has no ancestors at all, so that the
join/explode step produces its single null key. -/
def noAncestors (lm : LMap) (x : Int) : Bool := ascList lm x == []

/-- The concatenation of ancestor rows and self rows, reassociated so that
each input row's contributions are adjacent; permutation-equivalent to
`concatRows`. -/
def mergedRows {β : Type} (lm : LMap) (rows : List (Int × β)) :
    List (Option Int × β) :=
  rows.flatMap (fun r =>
    (rowKeys lm r.1).map (fun k => (k, r.2)) ++ [(some r.1, r.2)])

lemma concat_perm_merged {β : Type} (lm : LMap) :
    ∀ rows : List (Int × β), concatRows lm rows ~ mergedRows lm rows := by
  intro rows
  induction rows with
  | nil => rfl
  | cons r rs ih =>
      have h1 : concatRows lm (r :: rs) =
          ((rowKeys lm r.1).map (fun k => (k, r.2))) ++
            (ascRows lm rs ++ (some r.1, r.2) :: selfRows rs) := by
        simp [concatRows, ascRows, selfRows]
      rw [h1]
      have h2 : ascRows lm rs ++ (some r.1, r.2) :: selfRows rs ~
          (some r.1, r.2) :: concatRows lm rs := List.perm_middle
      calc ((rowKeys lm r.1).map (fun k => (k, r.2))) ++
            (ascRows lm rs ++ (some r.1, r.2) :: selfRows rs)
          ~ ((rowKeys lm r.1).map (fun k => (k, r.2))) ++
            ((some r.1, r.2) :: concatRows lm rs) := h2.append_left _
        _ ~ ((rowKeys lm r.1).map (fun k => (k, r.2))) ++
            ((some r.1, r.2) :: mergedRows lm rs) := ((ih.cons _).append_left _)
        _ = mergedRows lm (r :: rs) := by simp [mergedRows]

lemma groupVals_append {β : Type} (k : Option Int)
    (l₁ l₂ : List (Option Int × β)) :
    groupVals k (l₁ ++ l₂) = groupVals k l₁ ++ groupVals k l₂ := by
  simp [groupVals]

lemma groupVals_map_pair {β : Type} (v : β) (k : Option Int) :
    ∀ ks : List (Option Int),
      groupVals k (ks.map (fun x => (x, v))) = List.replicate (ks.count k) v := by
  intro ks
  induction ks with
  | nil => rfl
  | cons x ks ih =>
      by_cases h : x = k
      · subst h
        simp only [List.map_cons, groupVals, List.filter_cons] at *
        simp only [beq_self_eq_true, if_pos, List.map_cons, List.count_cons,
          beq_self_eq_true, if_true]
        rw [show ∀ n, List.replicate (n + 1) v = v :: List.replicate n v from
          fun n => List.replicate_succ v n]
        simpa [groupVals] using ih
      · have hbeq : (x == k) = false := beq_eq_false_iff_ne.mpr h
        simp only [List.map_cons, groupVals, List.filter_cons, hbeq,
          List.count_cons, if_neg h] at *
        simpa [groupVals, hbeq] using ih

lemma count_some_map_some (t : Int) (l : List Int) :
    (l.map some).count (some t) = l.count t := by
  induction l with
  | nil => rfl
  | cons x l ih => simp [List.count_cons, ih]

lemma count_some_rowKeys (lm : LMap) (x t : Int)
    (hnd : (ascList lm x).Nodup) :
    (rowKeys lm x).count (some t) = if t ∈ ascList lm x then 1 else 0 := by
  unfold rowKeys
  by_cases h : ascList lm x = []
  · simp [h]
  · rw [if_neg h, count_some_map_some]
    by_cases hm : t ∈ ascList lm x
    · rw [if_pos hm, List.count_eq_one_of_mem hnd hm]
    · rw [if_neg hm, List.count_eq_zero_of_not_mem hm]

lemma count_none_rowKeys (lm : LMap) (x : Int) :
    (rowKeys lm x).count none = if ascList lm x = [] then 1 else 0 := by
  unfold rowKeys
  by_cases h : ascList lm x = []
  · simp [h]
  · rw [if_neg h, if_neg h]
    refine List.count_eq_zero_of_not_mem ?_
    simp

lemma groupVals_merged_some {β : Type} (lm : LMap) (hwf : LMWellFormed lm)
    (t : Int) :
    ∀ rows : List (Int × β),
      groupVals (some t) (mergedRows lm rows) =
        (rows.filter (fun r => inSubtree lm t r.1)).map Prod.snd := by
  intro rows
  induction rows with
  | nil => rfl
  | cons r rs ih =>
      have hstep : mergedRows lm (r :: rs) =
          ((rowKeys lm r.1).map (fun k => (k, r.2)) ++ [(some r.1, r.2)]) ++
            mergedRows lm rs := by simp [mergedRows]
      obtain ⟨x, v⟩ := r
      rw [hstep, groupVals_append, groupVals_append, ih, groupVals_map_pair,
        count_some_rowKeys lm x t (hwf x).2]
      by_cases hx : x = t
      · subst hx
        have hna : x ∉ ascList lm x := (hwf x).1
        have hsub : inSubtree lm x x = true := by simp [inSubtree]
        simp [hna, groupVals, List.filter_cons, hsub]
      · have hself : groupVals (some t) [(some x, v)] = [] := by
          simp [groupVals, List.filter_cons, hx]
        rw [hself]
        by_cases hm : t ∈ ascList lm x
        · have hsub : inSubtree lm t x = true := by simp [inSubtree, hm]
          simp [hm, List.filter_cons, hsub]
        · have hsub : inSubtree lm t x = false := by
            simp [inSubtree, hx, hm]
          simp [hm, List.filter_cons, hsub]

lemma groupVals_merged_none {β : Type} (lm : LMap) :
    ∀ rows : List (Int × β),
      groupVals none (mergedRows lm rows) =
        (rows.filter (fun r => noAncestors lm r.1)).map Prod.snd := by
  intro rows
  induction rows with
  | nil => rfl
  | cons r rs ih =>
      have hstep : mergedRows lm (r :: rs) =
          ((rowKeys lm r.1).map (fun k => (k, r.2)) ++ [(some r.1, r.2)]) ++
            mergedRows lm rs := by simp [mergedRows]
      rw [hstep, groupVals_append, groupVals_append, ih, groupVals_map_pair,
        count_none_rowKeys lm r.1]
      have hself : groupVals none [(some r.1, r.2)] = [] := by
        simp [groupVals, List.filter_cons]
      rw [hself]
      by_cases h : ascList lm r.1 = []
      · have hna : noAncestors lm r.1 = true := by simp [noAncestors, h]
        simp [h, List.filter_cons, hna]
      · have hna : noAncestors lm r.1 = false := by simp [noAncestors, h]
        simp [h, List.filter_cons, hna]

lemma groupVals_asc_some {β : Type} (lm : LMap) (hwf : LMWellFormed lm)
    (t : Int) :
    ∀ rows : List (Int × β),
      groupVals (some t) (ascRows lm rows) =
        (rows.filter (fun r => decide (t ∈ ascList lm r.1))).map Prod.snd := by
  intro rows
  induction rows with
  | nil => rfl
  | cons r rs ih =>
      have hstep : ascRows lm (r :: rs) =
          (rowKeys lm r.1).map (fun k => (k, r.2)) ++ ascRows lm rs := by
        simp [ascRows]
      rw [hstep, groupVals_append, ih, groupVals_map_pair,
        count_some_rowKeys lm r.1 t (hwf r.1).2]
      by_cases hm : t ∈ ascList lm r.1
      · simp [hm, List.filter_cons]
      · simp [hm, List.filter_cons]

lemma groupVals_perm {β : Type} (k : Option Int)
    {l₁ l₂ : List (Option Int × β)} (h : l₁ ~ l₂) :
    groupVals k l₁ ~ groupVals k l₂ :=
  (h.filter _).map _

lemma groupVals_eq_nil_iff {β : Type} (k : Option Int)
    (l : List (Option Int × β)) :
    groupVals k l = [] ↔ k ∉ l.map Prod.fst := by
  simp only [groupVals, List.map_eq_nil_iff, List.filter_eq_nil_iff,
    List.mem_map]
  constructor
  · rintro h ⟨p, hp, hfst⟩
    exact absurd (by simp [hfst]) (h p hp)
  · intro h p hp hbeq
    exact h ⟨p, hp, by simpa using hbeq⟩

lemma map_fst_groupAgg {β γ : Type} (agg : List β → γ)
    (l : List (Option Int × β)) :
    (groupAgg agg l).map Prod.fst = groupKeys l := by
  unfold groupAgg
  rw [List.map_map]
  have hid : (Prod.fst ∘ fun k => (k, agg (groupVals k l))) = id := rfl
  rw [hid, List.map_id]

lemma lookup_cons_pos {γ : Type} (k : Option Int) (p : Option Int × γ)
    (l : List (Option Int × γ)) (h : p.1 = k) :
    lookupKey k (p :: l) = some p.2 := by
  unfold lookupKey
  rw [List.find?_cons_of_pos _ (by simp [h])]
  rfl

lemma lookup_cons_neg {γ : Type} (k : Option Int) (p : Option Int × γ)
    (l : List (Option Int × γ)) (h : p.1 ≠ k) :
    lookupKey k (p :: l) = lookupKey k l := by
  unfold lookupKey
  rw [List.find?_cons_of_neg _ (by simp [h])]

lemma lookup_map_keys {γ : Type} (f : Option Int → γ) (k : Option Int) :
    ∀ ks : List (Option Int),
      lookupKey k (ks.map (fun x => (x, f x))) =
        if k ∈ ks then some (f k) else none := by
  intro ks
  induction ks with
  | nil => rfl
  | cons x ks ih =>
      rw [List.map_cons]
      by_cases h : x = k
      · subst h
        rw [lookup_cons_pos x (x, f x) _ rfl, if_pos (List.mem_cons_self x ks)]
      · rw [lookup_cons_neg k (x, f x) _ h, ih]
        have hcond : (k ∈ x :: ks) ↔ (k ∈ ks) := by
          simp only [List.mem_cons, or_iff_right_iff_imp]
          intro hk
          exact absurd hk.symm h
        by_cases hm : k ∈ ks
        · rw [if_pos hm, if_pos (hcond.mpr hm)]
        · rw [if_neg hm, if_neg (fun hh => hm (hcond.mp hh))]

lemma lookup_some_iff_mem {γ : Type} (k : Option Int) (v : γ) :
    ∀ l : List (Option Int × γ), (l.map Prod.fst).Nodup →
      (lookupKey k l = some v ↔ (k, v) ∈ l) := by
  intro l
  induction l with
  | nil => simp [lookupKey]
  | cons p l ih =>
      intro hnd
      rw [List.map_cons, List.nodup_cons] at hnd
      obtain ⟨hp, hnd'⟩ := hnd
      by_cases h : p.1 = k
      · rw [lookup_cons_pos k p l h]
        constructor
        · intro hv
          have hv' : p.2 = v := by injection hv
          have hpk : p = (k, v) := by
            obtain ⟨p1, p2⟩ := p
            simp only at h hv'
            rw [h, hv']
          rw [hpk]
          exact List.mem_cons_self _ _
        · intro hm
          rcases List.mem_cons.mp hm with he | he
          · rw [← he]
          · exact absurd (h ▸ List.mem_map.mpr ⟨(k, v), he, rfl⟩) hp
      · rw [lookup_cons_neg k p l h, ih hnd']
        constructor
        · exact fun hh => List.mem_cons_of_mem _ hh
        · intro hh
          rcases List.mem_cons.mp hh with he | he
          · exfalso
            rw [← he] at h
            exact h rfl
          · exact he

lemma lookup_eq_of_perm {γ : Type} (k : Option Int)
    {l l' : List (Option Int × γ)} (hnd : (l.map Prod.fst).Nodup)
    (hp : l ~ l') : lookupKey k l = lookupKey k l' := by
  have hnd' : (l'.map Prod.fst).Nodup := ((hp.map Prod.fst).nodup_iff).mp hnd
  cases hl' : lookupKey k l' with
  | some v =>
      exact (lookup_some_iff_mem k v l hnd).mpr
        (hp.mem_iff.mpr ((lookup_some_iff_mem k v l' hnd').mp hl'))
  | none =>
      cases hl : lookupKey k l with
      | none => rfl
      | some v =>
          exfalso
          have : lookupKey k l' = some v :=
            (lookup_some_iff_mem k v l' hnd').mpr
              (hp.mem_iff.mp ((lookup_some_iff_mem k v l hnd).mp hl))
          rw [hl'] at this
          cases this

lemma lookup_sorted_groupAgg {β γ : Type} [DecidableEq β] (agg : List β → γ)
    (l : List (Option Int × β)) (k : Option Int) :
    lookupKey k (sortRows (groupAgg agg l)) =
      if groupVals k l = [] then none else some (agg (groupVals k l)) := by
  have hnd : ((groupAgg agg l).map Prod.fst).Nodup := by
    rw [map_fst_groupAgg]
    exact (l.map Prod.fst).nodup_dedup
  have hperm : groupAgg agg l ~ sortRows (groupAgg agg l) :=
    (List.perm_insertionSort _ _).symm
  rw [← lookup_eq_of_perm k hnd hperm]
  rw [show groupAgg agg l =
    (groupKeys l).map (fun x => (x, agg (groupVals x l))) from rfl]
  rw [lookup_map_keys (fun x => agg (groupVals x l)) k (groupKeys l)]
  by_cases h : groupVals k l = []
  · have hk : k ∉ groupKeys l := by
      rw [groupKeys, List.mem_dedup]
      exact (groupVals_eq_nil_iff k l).mp h
    rw [if_neg hk, if_pos h]
  · have hk : k ∈ groupKeys l := by
      rw [groupKeys, List.mem_dedup]
      by_contra hkk
      exact h ((groupVals_eq_nil_iff k l).mpr hkk)
    rw [if_pos hk, if_neg h]

lemma sortedQ_sorted (l : List Rat) : List.Sorted (· ≤ ·) (sortedQ l) :=
  List.sorted_insertionSort _ l

lemma sortedQ_perm (l : List Rat) : sortedQ l ~ l :=
  List.perm_insertionSort _ l

lemma sortedQ_congr {l l' : List Rat} (h : l ~ l') : sortedQ l = sortedQ l' :=
  List.eq_of_perm_of_sorted
    ((sortedQ_perm l).trans (h.trans (sortedQ_perm l').symm))
    (sortedQ_sorted l) (sortedQ_sorted l')

lemma aggFn_congr (fn : String) (hfn : fn ∈ fnAllowed) {l l' : List Rat}
    (h : l ~ l') : aggFn fn l = aggFn fn l' := by
  have hsum : l.sum = l'.sum := h.sum_eq
  have hlen : l.length = l'.length := h.length_eq
  have hsq : sortedQ l = sortedQ l' := sortedQ_congr h
  simp only [fnAllowed, List.mem_cons, List.not_mem_nil, or_false] at hfn
  rcases hfn with h1 | h1 | h1 | h1 | h1 <;> subst h1
  · show qsum l = qsum l'
    rw [qsum, qsum, hsum]
  · show qmean l = qmean l'
    rw [qmean, qmean, hsum, hlen]
  · show qmin l = qmin l'
    rw [qmin, qmin, hsq]
  · show qmax l = qmax l'
    rw [qmax, qmax, hsq]
  · show qmedian l = qmedian l'
    rw [qmedian, qmedian, hsq]

lemma numPipeline_lookup_subtree (lm : LMap) (hwf : LMWellFormed lm)
    (fn : String) (hfn : fn ∈ fnAllowed) (rows : List (Int × Rat)) (t : Int) :
    lookupKey (some t) (numPipeline lm (aggFn fn) rows) =
      if rows.filter (fun r => inSubtree lm t r.1) = [] then none
      else some (aggFn fn
        ((rows.filter (fun r => inSubtree lm t r.1)).map Prod.snd)) := by
  rw [numPipeline, lookup_sorted_groupAgg]
  have hperm : groupVals (some t) (concatRows lm rows) ~
      (rows.filter (fun r => inSubtree lm t r.1)).map Prod.snd := by
    have h1 := groupVals_perm (some t) (concat_perm_merged lm rows)
    rw [groupVals_merged_some lm hwf t rows] at h1
    exact h1
  have hnil : groupVals (some t) (concatRows lm rows) = [] ↔
      rows.filter (fun r => inSubtree lm t r.1) = [] := by
    rw [← List.length_eq_zero, hperm.length_eq, List.length_map,
      List.length_eq_zero]
  by_cases h : rows.filter (fun r => inSubtree lm t r.1) = []
  · rw [if_pos (hnil.mpr h), if_pos h]
  · rw [if_neg (fun hh => h (hnil.mp hh)), if_neg h,
      aggFn_congr fn hfn hperm]

lemma numPipeline_lookup_null (lm : LMap) (fn : String) (hfn : fn ∈ fnAllowed)
    (rows : List (Int × Rat)) :
    lookupKey none (numPipeline lm (aggFn fn) rows) =
      if rows.filter (fun r => noAncestors lm r.1) = [] then none
      else some (aggFn fn
        ((rows.filter (fun r => noAncestors lm r.1)).map Prod.snd)) := by
  rw [numPipeline, lookup_sorted_groupAgg]
  have hperm : groupVals none (concatRows lm rows) ~
      (rows.filter (fun r => noAncestors lm r.1)).map Prod.snd := by
    have h1 := groupVals_perm none (concat_perm_merged lm rows)
    rw [groupVals_merged_none lm rows] at h1
    exact h1
  have hnil : groupVals none (concatRows lm rows) = [] ↔
      rows.filter (fun r => noAncestors lm r.1) = [] := by
    rw [← List.length_eq_zero, hperm.length_eq, List.length_map,
      List.length_eq_zero]
  by_cases h : rows.filter (fun r => noAncestors lm r.1) = []
  · rw [if_pos (hnil.mpr h), if_pos h]
  · rw [if_neg (fun hh => h (hnil.mp hh)), if_neg h,
      aggFn_congr fn hfn hperm]

lemma filter_pair_diag (p : Int → Bool) (l : List Int) :
    (l.map (fun x => (x, x))).filter (fun r => p r.1) =
      (l.filter p).map (fun x => (x, x)) := by
  induction l with
  | nil => rfl
  | cons x l ih =>
      by_cases h : p x
      · simp [List.filter_cons, h, ih]
      · simp only [List.map_cons, List.filter_cons] at *
        simp [h, ih]

lemma countPipeline_lookup_subtree (lm : LMap) (hwf : LMWellFormed lm)
    (taxids : List Int) (t : Int) :
    lookupKey (some t) (countPipeline lm taxids) =
      if taxids.filter (fun x => inSubtree lm t x) = [] then none
      else some ((taxids.filter (fun x => inSubtree lm t x)).length) := by
  rw [countPipeline, lookup_sorted_groupAgg]
  have hperm : groupVals (some t)
      (concatRows lm (taxids.map (fun x => (x, x)))) ~
      ((taxids.map (fun x => (x, x))).filter
        (fun r => inSubtree lm t r.1)).map Prod.snd := by
    have h1 := groupVals_perm (some t)
      (concat_perm_merged lm (taxids.map (fun x => (x, x))))
    rw [groupVals_merged_some lm hwf t (taxids.map (fun x => (x, x)))] at h1
    exact h1
  rw [filter_pair_diag (fun x => inSubtree lm t x) taxids] at hperm
  have hlen : ∀ ll : List Int,
      ((ll.map (fun x => (x, x))).map Prod.snd).length = ll.length := by
    intro ll
    rw [List.length_map, List.length_map]
  have hnil : groupVals (some t)
      (concatRows lm (taxids.map (fun x => (x, x)))) = [] ↔
      taxids.filter (fun x => inSubtree lm t x) = [] := by
    rw [← List.length_eq_zero, hperm.length_eq, hlen, List.length_eq_zero]
  by_cases h : taxids.filter (fun x => inSubtree lm t x) = []
  · rw [if_pos (hnil.mpr h), if_pos h]
  · rw [if_neg (fun hh => h (hnil.mp hh)), if_neg h, hperm.length_eq, hlen]

lemma countPipeline_lookup_null (lm : LMap) (taxids : List Int) :
    lookupKey none (countPipeline lm taxids) =
      if taxids.filter (fun x => noAncestors lm x) = [] then none
      else some ((taxids.filter (fun x => noAncestors lm x)).length) := by
  rw [countPipeline, lookup_sorted_groupAgg]
  have hperm : groupVals none
      (concatRows lm (taxids.map (fun x => (x, x)))) ~
      ((taxids.map (fun x => (x, x))).filter
        (fun r => noAncestors lm r.1)).map Prod.snd := by
    have h1 := groupVals_perm none
      (concat_perm_merged lm (taxids.map (fun x => (x, x))))
    rw [groupVals_merged_none lm (taxids.map (fun x => (x, x)))] at h1
    exact h1
  rw [filter_pair_diag (fun x => noAncestors lm x) taxids] at hperm
  have hlen : ∀ ll : List Int,
      ((ll.map (fun x => (x, x))).map Prod.snd).length = ll.length := by
    intro ll
    rw [List.length_map, List.length_map]
  have hnil : groupVals none
      (concatRows lm (taxids.map (fun x => (x, x)))) = [] ↔
      taxids.filter (fun x => noAncestors lm x) = [] := by
    rw [← List.length_eq_zero, hperm.length_eq, hlen, List.length_eq_zero]
  by_cases h : taxids.filter (fun x => noAncestors lm x) = []
  · rw [if_pos (hnil.mpr h), if_pos h]
  · rw [if_neg (fun hh => h (hnil.mp hh)), if_neg h, hperm.length_eq, hlen]

lemma some_mem_keys_pipeline {β γ : Type} (lm : LMap) (agg : List β → γ)
    (rows : List (Int × β)) (x : Int) (v : β) (hm : (x, v) ∈ rows) :
    some x ∈ (sortRows (groupAgg agg (concatRows lm rows))).map Prod.fst := by
  have h1 : (some x, v) ∈ concatRows lm rows := by
    unfold concatRows selfRows
    exact List.mem_append_right _ (List.mem_map.mpr ⟨(x, v), hm, rfl⟩)
  have h2 : some x ∈ (concatRows lm rows).map Prod.fst :=
    List.mem_map.mpr ⟨(some x, v), h1, rfl⟩
  have h3 : some x ∈ groupKeys (concatRows lm rows) := List.mem_dedup.mpr h2
  have h4 : some x ∈ (groupAgg agg (concatRows lm rows)).map Prod.fst := by
    rw [map_fst_groupAgg]
    exact h3
  have h5 : (sortRows (groupAgg agg (concatRows lm rows))).map Prod.fst ~
      (groupAgg agg (concatRows lm rows)).map Prod.fst :=
    (List.perm_insertionSort _ _).map Prod.fst
  exact h5.mem_iff.mpr h4

/-- Totality of the null-first key order used by `sort("taxid")`. -/
instance keyLE_total {γ : Type} :
    IsTotal (Option Int × γ) (fun a b => keyLE a.1 b.1 = true) := by
  constructor
  intro a b
  rcases ha : a.1 with _ | x <;> rcases hb : b.1 with _ | y <;>
    simp [keyLE, ha, hb]
  exact Int.le_total x y

/-- Transitivity of the null-first key order used by `sort("taxid")`. -/
instance keyLE_trans {γ : Type} :
    IsTrans (Option Int × γ) (fun a b => keyLE a.1 b.1 = true) := by
  constructor
  intro a b c hab hbc
  rcases ha : a.1 with _ | x <;> rcases hb : b.1 with _ | y <;>
    rcases hc : c.1 with _ | z <;> simp_all [keyLE]
  omega

lemma sortRows_sorted {γ : Type} (l : List (Option Int × γ)) :
    List.Sorted (fun a b => keyLE a.1 b.1 = true) (sortRows l) :=
  List.sorted_insertionSort _ l

lemma ensure_column_exists_ok (cols : List String) (column : String)
    (h : column ∈ cols) : ensure_column_exists cols column = .ok () := by
  unfold ensure_column_exists
  rw [if_pos h]

lemma ensure_column_exists_err (cols : List String) (column : String)
    (h : column ∉ cols) :
    ensure_column_exists cols column =
      .error (.valueError (column ++ " is not a column of the DataFrame.")) := by
  unfold ensure_column_exists
  rw [if_neg h]

lemma ensure_int32_num_ok (d : NumDF) (taxid_col : String)
    (h : taxid_col ∈ d.cols) :
    ensure_int32_num d taxid_col = .ok ⟨d.cols, ensure_int32_rows d.rows⟩ := by
  unfold ensure_int32_num
  rw [if_pos h]

lemma ensure_int32_count_ok (d : CountDF) (taxid_col : String)
    (h : taxid_col ∈ d.cols) :
    ensure_int32_count d taxid_col = .ok ⟨d.cols, d.rows.map toInt32⟩ := by
  unfold ensure_int32_count
  rw [if_pos h]

lemma aggregate_num_ok (lm : LMap) (d : NumDF) (column fn taxid_col : String)
    (hc : column ∈ d.cols) (ht : taxid_col ∈ d.cols) (hcol : column ≠ "taxid")
    (hfn : fn ∈ fnAllowed) :
    aggregate_num lm d column fn taxid_col =
      .ok (numPipeline lm (aggFn fn) (ensure_int32_rows d.rows)) := by
  unfold aggregate_num
  rw [ensure_column_exists_ok d.cols column hc,
    ensure_column_exists_ok d.cols taxid_col ht,
    ensure_int32_num_ok d taxid_col ht]
  show (if column = "taxid" then
      (Except.error (PyError.valueError reservedMsg) :
        Except PyError (List (Option Int × Rat)))
    else if fn ∈ fnAllowed then
      Except.ok (numPipeline lm (aggFn fn) (ensure_int32_rows d.rows))
    else Except.error (PyError.valueError fnErrMsg)) =
      Except.ok (numPipeline lm (aggFn fn) (ensure_int32_rows d.rows))
  rw [if_neg hcol, if_pos hfn]

lemma aggregate_num_err_col (lm : LMap) (d : NumDF)
    (column fn taxid_col : String) (h : column ∉ d.cols) :
    aggregate_num lm d column fn taxid_col =
      .error (.valueError (column ++ " is not a column of the DataFrame.")) := by
  unfold aggregate_num
  rw [ensure_column_exists_err d.cols column h]

lemma aggregate_num_err_taxidcol (lm : LMap) (d : NumDF)
    (column fn taxid_col : String) (hc : column ∈ d.cols)
    (h : taxid_col ∉ d.cols) :
    aggregate_num lm d column fn taxid_col =
      .error (.valueError (taxid_col ++ " is not a column of the DataFrame.")) := by
  unfold aggregate_num
  rw [ensure_column_exists_ok d.cols column hc,
    ensure_column_exists_err d.cols taxid_col h]

lemma aggregate_num_err_reserved (lm : LMap) (d : NumDF)
    (fn taxid_col : String) (hc : "taxid" ∈ d.cols) (ht : taxid_col ∈ d.cols) :
    aggregate_num lm d "taxid" fn taxid_col =
      .error (.valueError reservedMsg) := by
  unfold aggregate_num
  rw [ensure_column_exists_ok d.cols "taxid" hc,
    ensure_column_exists_ok d.cols taxid_col ht,
    ensure_int32_num_ok d taxid_col ht]
  show (if "taxid" = "taxid" then
      (Except.error (PyError.valueError reservedMsg) :
        Except PyError (List (Option Int × Rat)))
    else if fn ∈ fnAllowed then
      Except.ok (numPipeline lm (aggFn fn) (ensure_int32_rows d.rows))
    else Except.error (PyError.valueError fnErrMsg)) =
      Except.error (PyError.valueError reservedMsg)
  rw [if_pos rfl]

lemma aggregate_num_err_fn (lm : LMap) (d : NumDF)
    (column fn taxid_col : String) (hc : column ∈ d.cols)
    (ht : taxid_col ∈ d.cols) (hcol : column ≠ "taxid")
    (hfn : fn ∉ fnAllowed) :
    aggregate_num lm d column fn taxid_col = .error (.valueError fnErrMsg) := by
  unfold aggregate_num
  rw [ensure_column_exists_ok d.cols column hc,
    ensure_column_exists_ok d.cols taxid_col ht,
    ensure_int32_num_ok d taxid_col ht]
  show (if column = "taxid" then
      (Except.error (PyError.valueError reservedMsg) :
        Except PyError (List (Option Int × Rat)))
    else if fn ∈ fnAllowed then
      Except.ok (numPipeline lm (aggFn fn) (ensure_int32_rows d.rows))
    else Except.error (PyError.valueError fnErrMsg)) =
      Except.error (PyError.valueError fnErrMsg)
  rw [if_neg hcol, if_neg hfn]

lemma aggregate_count_ok (lm : LMap) (d : CountDF) (result_col taxid_col : String)
    (ht : taxid_col ∈ d.cols) :
    aggregate_count lm d result_col taxid_col =
      .ok (countPipeline lm (d.rows.map toInt32)) := by
  unfold aggregate_count
  rw [ensure_column_exists_ok d.cols taxid_col ht,
    ensure_int32_count_ok d taxid_col ht]

lemma aggregate_count_err_col (lm : LMap) (d : CountDF)
    (result_col taxid_col : String) (h : taxid_col ∉ d.cols) :
    aggregate_count lm d result_col taxid_col =
      .error (.valueError (taxid_col ++ " is not a column of the DataFrame.")) := by
  unfold aggregate_count
  rw [ensure_column_exists_err d.cols taxid_col h]

lemma ensure_int32_cat_ok (d : CatDF) (taxid_col : String)
    (h : taxid_col ∈ d.cols) :
    ensure_int32_cat d taxid_col = .ok ⟨d.cols, ensure_int32_rows d.rows⟩ := by
  unfold ensure_int32_cat
  rw [if_pos h]

lemma ensure_int32_cat_err (d : CatDF) (taxid_col : String)
    (h : taxid_col ∉ d.cols) :
    ensure_int32_cat d taxid_col = .error (.columnNotFound taxid_col) := by
  unfold ensure_int32_cat
  rw [if_neg h]

lemma catSelect_ok (d : CatDF) (column taxid_col : String)
    (ht : taxid_col ∈ d.cols) (hc : column ∈ d.cols) (hcn : column ≠ "taxid") :
    catSelect d column taxid_col = .ok ⟨["taxid", column], d.rows⟩ := by
  unfold catSelect
  rw [if_pos ht, if_pos hc, if_neg hcn]

lemma catSelect_err_col (d : CatDF) (column taxid_col : String)
    (ht : taxid_col ∈ d.cols) (hc : column ∉ d.cols) :
    catSelect d column taxid_col = .error (.columnNotFound column) := by
  unfold catSelect
  rw [if_pos ht, if_neg hc]

lemma aggregate_cat_err_taxidcol (lm : LMap) (d : CatDF)
    (column : String) (keep_leaves : Bool) (taxid_col : String)
    (h : taxid_col ∉ d.cols) :
    aggregate_cat lm d column keep_leaves taxid_col =
      .error (.columnNotFound taxid_col) := by
  unfold aggregate_cat
  rw [ensure_int32_cat_err d taxid_col h]

lemma aggregate_cat_err_col (lm : LMap) (d : CatDF)
    (column : String) (keep_leaves : Bool) (taxid_col : String)
    (ht : taxid_col ∈ d.cols) (hc : column ∉ d.cols) :
    aggregate_cat lm d column keep_leaves taxid_col =
      .error (.columnNotFound column) := by
  unfold aggregate_cat
  rw [ensure_int32_cat_ok d taxid_col ht]
  split
  next heq => simp at heq
  next d1 heq =>
    injection heq with h1
    subst h1
    rw [catSelect_err_col ⟨d.cols, ensure_int32_rows d.rows⟩ column
      taxid_col ht hc]

lemma aggregate_cat_noleaves (lm : LMap) (d : CatDF)
    (column taxid_col : String) (ht : taxid_col ∈ d.cols)
    (hc : column ∈ d.cols) (hcn : column ≠ "taxid") :
    aggregate_cat lm d column false taxid_col =
      .ok (catCountRows lm (ensure_int32_rows d.rows)) := by
  unfold aggregate_cat
  rw [ensure_int32_cat_ok d taxid_col ht]
  split
  next heq => simp at heq
  next d1 heq =>
    injection heq with h1
    subst h1
    rw [catSelect_ok ⟨d.cols, ensure_int32_rows d.rows⟩ column taxid_col
      ht hc hcn]
    split
    next heq2 => simp at heq2
    next d2 heq2 =>
      injection heq2 with h2
      subst h2
      rfl

lemma aggregate_cat_keep_default (lm : LMap) (d : CatDF) (column : String)
    (ht : "taxid" ∈ d.cols) (hc : column ∈ d.cols) (hcn : column ≠ "taxid") :
    aggregate_cat lm d column true "taxid" =
      .ok (catCountRows lm (ensure_int32_rows d.rows) ++
        (ensure_int32_rows d.rows).map
          (fun r => ⟨some r.1, .cat r.2, "leaf"⟩)) := by
  unfold aggregate_cat
  rw [ensure_int32_cat_ok d "taxid" ht]
  split
  next heq => simp at heq
  next d1 heq =>
    injection heq with h1
    subst h1
    rw [catSelect_ok ⟨d.cols, ensure_int32_rows d.rows⟩ column "taxid"
      ht hc hcn]
    split
    next heq2 => simp at heq2
    next d2 heq2 =>
      injection heq2 with h2
      subst h2
      have hl : catLeaves ⟨["taxid", column], ensure_int32_rows d.rows⟩
          column "taxid" = .ok ((ensure_int32_rows d.rows).map
            (fun r => ⟨some r.1, .cat r.2, "leaf"⟩)) := by
        unfold catLeaves
        rw [if_pos rfl]
      show (match catLeaves ⟨["taxid", column], ensure_int32_rows d.rows⟩
          column "taxid" with
        | .error e => (Except.error e : Except PyError (List CatRow))
        | .ok leaves =>
            Except.ok (catCountRows lm (ensure_int32_rows d.rows) ++ leaves)) =
          Except.ok (catCountRows lm (ensure_int32_rows d.rows) ++
            (ensure_int32_rows d.rows).map
              (fun r => ⟨some r.1, .cat r.2, "leaf"⟩))
      rw [hl]

lemma aggregate_cat_keep_err (lm : LMap) (d : CatDF)
    (column taxid_col : String) (ht : taxid_col ∈ d.cols)
    (hc : column ∈ d.cols) (hcn : column ≠ "taxid")
    (hne : taxid_col ≠ "taxid") (hnc : taxid_col ≠ column) :
    aggregate_cat lm d column true taxid_col =
      .error (.columnNotFound taxid_col) := by
  unfold aggregate_cat
  rw [ensure_int32_cat_ok d taxid_col ht]
  split
  next heq => simp at heq
  next d1 heq =>
    injection heq with h1
    subst h1
    rw [catSelect_ok ⟨d.cols, ensure_int32_rows d.rows⟩ column taxid_col
      ht hc hcn]
    split
    next heq2 => simp at heq2
    next d2 heq2 =>
      injection heq2 with h2
      subst h2
      have hl : catLeaves ⟨["taxid", column], ensure_int32_rows d.rows⟩
          column taxid_col = .error (.columnNotFound taxid_col) := by
        unfold catLeaves
        rw [if_neg hne, if_neg hnc]
      show (match catLeaves ⟨["taxid", column], ensure_int32_rows d.rows⟩
          column taxid_col with
        | .error e => (Except.error e : Except PyError (List CatRow))
        | .ok leaves =>
            Except.ok (catCountRows lm (ensure_int32_rows d.rows) ++ leaves)) =
          Except.error (PyError.columnNotFound taxid_col)
      rw [hl]

lemma synthLM_wf : LMWellFormed synthLM := by
  intro x
  unfold ascList synthLM
  split_ifs with h1 h2 h3 h4 h5 h6 <;> subst_vars <;>
    first
      | decide
      | simp

lemma toInt32_eq_self {n : Int} (h1 : -(2 ^ 31) ≤ n) (h2 : n < 2 ^ 31) :
    toInt32 n = n := by
  unfold toInt32
  have e1 : (2 : Int) ^ 31 = 2147483648 := by norm_num
  have e2 : (2 : Int) ^ 32 = 4294967296 := by norm_num
  rw [e1, e2]
  rw [e1] at h1 h2
  omega

lemma toInt32_wraps (m : Int) :
    -(2 ^ 31) ≤ toInt32 m ∧ toInt32 m < 2 ^ 31 ∧
      (toInt32 m - m) % 2 ^ 32 = 0 := by
  unfold toInt32
  have e1 : (2 : Int) ^ 31 = 2147483648 := by norm_num
  have e2 : (2 : Int) ^ 32 = 4294967296 := by norm_num
  rw [e1, e2]
  omega

lemma map_taxid_catCountRows (lm : LMap) (rows : List (Int × String)) :
    (catCountRows lm rows).map CatRow.taxid =
      groupKeys (catExploded lm rows) := by
  unfold catCountRows
  rw [List.map_map]
  have hid : (CatRow.taxid ∘ fun k =>
      (⟨k, .dist ((catLevels rows).map
        (fun c => (c, (groupVals k (catExploded lm rows)).count c))),
        "count"⟩ : CatRow)) = id := rfl
  rw [hid, List.map_id]

lemma mem_catCountRows_taxid_iff (lm : LMap) (hwf : LMWellFormed lm)
    (rows : List (Int × String)) (t : Int) :
    some t ∈ (catCountRows lm rows).map CatRow.taxid ↔
      rows.filter (fun r => decide (t ∈ ascList lm r.1)) ≠ [] := by
  rw [map_taxid_catCountRows, groupKeys, List.mem_dedup]
  have h1 := groupVals_eq_nil_iff (some t) (catExploded lm rows)
  rw [show catExploded lm rows = ascRows lm rows from rfl] at *
  rw [groupVals_asc_some lm hwf t rows] at h1
  constructor
  · intro hm hnil
    have hmap : (rows.filter
        (fun r => decide (t ∈ ascList lm r.1))).map Prod.snd = [] := by
      rw [hnil]
      rfl
    exact (h1.mp hmap) hm
  · intro hne
    by_contra hnm
    have hmap := h1.mpr hnm
    rw [List.map_eq_nil_iff] at hmap
    exact hne hmap

lemma catCountRows_value_at (lm : LMap) (hwf : LMWellFormed lm)
    (rows : List (Int × String)) (t : Int) :
    ∀ row ∈ catCountRows lm rows, row.taxid = some t →
      row.value = .dist ((catLevels rows).map (fun c =>
        (c, ((rows.filter (fun r => decide (t ∈ ascList lm r.1))).map
          Prod.snd).count c))) := by
  intro row hrow htax
  unfold catCountRows at hrow
  obtain ⟨k, hk, hrw⟩ := List.mem_map.mp hrow
  rw [← hrw] at htax ⊢
  simp only at htax ⊢
  rw [htax]  
  rw [show catExploded lm rows = ascRows lm rows from rfl,
    groupVals_asc_some lm hwf t rows]

lemma catCountRows_marker (lm : LMap) (rows : List (Int × String)) :
    ∀ row ∈ catCountRows lm rows, row.marker = "count" := by
  intro row hrow
  unfold catCountRows at hrow
  obtain ⟨k, hk, hrw⟩ := List.mem_map.mp hrow
  rw [← hrw]

lemma rowKeys_ne_nil (lm : LMap) (x : Int) : rowKeys lm x ≠ [] := by
  unfold rowKeys
  by_cases h : ascList lm x = []
  · rw [if_pos h]
    simp
  · rw [if_neg h]
    simp [h]

lemma catCountRows_ne_nil (lm : LMap) (rows : List (Int × String))
    (h : rows ≠ []) : catCountRows lm rows ≠ [] := by
  unfold catCountRows
  rw [Ne, List.map_eq_nil_iff, groupKeys, List.dedup_eq_nil,
    List.map_eq_nil_iff]
  cases rows with
  | nil => exact absurd rfl h
  | cons r rs =>
      intro hnil
      unfold catExploded ascRows at hnil
      rw [List.flatMap_cons] at hnil
      rcases List.append_eq_nil.mp hnil with ⟨h1, _⟩
      rw [List.map_eq_nil_iff] at h1
      exact rowKeys_ne_nil lm r.1 h1

lemma ensure_int32_rows_id {β : Type} (rows : List (Int × β))
    (hrange : ∀ r ∈ rows, -(2 ^ 31) ≤ r.1 ∧ r.1 < 2 ^ 31) :
    ensure_int32_rows rows = rows := by
  unfold ensure_int32_rows
  induction rows with
  | nil => rfl
  | cons r rs ih =>
      rw [List.map_cons]
      have hr := hrange r (List.mem_cons_self r rs)
      rw [toInt32_eq_self hr.1 hr.2, ih (fun x hx =>
        hrange x (List.mem_cons_of_mem r hx))]

/-- C5, counterexample: `aggregate_cat` performs no column validation of its
own; on a table lacking the identifier column it surfaces the engine's
`ColumnNotFoundError`, which is not a Python `ValueError`, so the claim that
every entry point raises a `ValueError` naming the missing column is false. -/
theorem C5_cex_cat_not_valueerror :
    aggregate_cat synthLM ⟨["cat"], []⟩ "cat" false "taxid" =
      .error (.columnNotFound "taxid") ∧
    PyError.isValueError (.columnNotFound "taxid") = false := by
  constructor
  · rfl
  · rfl

/-- C5, amended: `aggregate_num` and `aggregate_count` raise a `ValueError`
naming the missing column before any aggregation work (the target column is
checked first, then the identifier column); `aggregate_cat` instead raises
the engine's column-not-found error for a missing identifier column. -/
theorem C5_missing_column (lm : LMap) (d : NumDF) (column fn taxid_col : String)
    (dc : CountDF) (result_col : String) (dcat : CatDF) (ccolumn : String)
    (kl : Bool) :
    (column ∉ d.cols → aggregate_num lm d column fn taxid_col =
      .error (.valueError (column ++ " is not a column of the DataFrame."))) ∧
    (column ∈ d.cols → taxid_col ∉ d.cols →
      aggregate_num lm d column fn taxid_col =
        .error (.valueError (taxid_col ++ " is not a column of the DataFrame."))) ∧
    (taxid_col ∉ dc.cols → aggregate_count lm dc result_col taxid_col =
      .error (.valueError (taxid_col ++ " is not a column of the DataFrame."))) ∧
    (taxid_col ∉ dcat.cols → aggregate_cat lm dcat ccolumn kl taxid_col =
      .error (.columnNotFound taxid_col)) := by
  refine ⟨?_, ?_, ?_, ?_⟩
  · intro h
    exact aggregate_num_err_col lm d column fn taxid_col h
  · intro hc h
    exact aggregate_num_err_taxidcol lm d column fn taxid_col hc h
  · intro h
    exact aggregate_count_err_col lm dc result_col taxid_col h
  · intro h
    exact aggregate_cat_err_taxidcol lm dcat ccolumn kl taxid_col h

/-- C5, witness: on a table with only a `taxid` column, asking
`aggregate_num` to aggregate the absent column `value` yields the
`ValueError` naming `value`. -/
theorem C5_missing_column_witness :
    ("value" ∉ (["taxid"] : List String)) ∧
    aggregate_num synthLM ⟨["taxid"], []⟩ "value" "sum" "taxid" =
      .error (.valueError ("value" ++ " is not a column of the DataFrame.")) := by
  refine ⟨by decide, ?_⟩
  exact (C5_missing_column synthLM ⟨["taxid"], []⟩ "value" "sum" "taxid"
    ⟨["taxid"], []⟩ "n" ⟨["taxid"], []⟩ "cat" false).1 (by decide)

/-- C6: `aggregate_num` with the reserved target column name `taxid` always
raises a `ValueError` (the reserved-name message when both columns exist,
a missing-column message otherwise), and with an unknown aggregation
function it raises the `ValueError` whose message lists the allowed set
`sum, mean, min, max, median`. -/
theorem C6_reserved_and_bad_fn (lm : LMap) (d : NumDF) (fn taxid_col : String)
    (d2 : NumDF) (column2 fn2 taxid2 : String) (hc2 : column2 ∈ d2.cols)
    (ht2 : taxid2 ∈ d2.cols) (hcol2 : column2 ≠ "taxid")
    (hfn2 : fn2 ∉ fnAllowed) :
    (∃ msg, aggregate_num lm d "taxid" fn taxid_col =
      .error (.valueError msg)) ∧
    aggregate_num lm d2 column2 fn2 taxid2 = .error (.valueError fnErrMsg) ∧
    fnErrMsg = "fn value must be one of " ++
      String.intercalate ", " fnAllowed ++ "." := by
  refine ⟨?_, aggregate_num_err_fn lm d2 column2 fn2 taxid2 hc2 ht2 hcol2 hfn2,
    rfl⟩
  by_cases hc : "taxid" ∈ d.cols
  · by_cases ht : taxid_col ∈ d.cols
    · exact ⟨reservedMsg, aggregate_num_err_reserved lm d fn taxid_col hc ht⟩
    · exact ⟨taxid_col ++ " is not a column of the DataFrame.",
        aggregate_num_err_taxidcol lm d "taxid" fn taxid_col hc ht⟩
  · exact ⟨"taxid" ++ " is not a column of the DataFrame.",
      aggregate_num_err_col lm d "taxid" fn taxid_col hc⟩

/-- C6, witness: the reserved name and an unknown function `bogus` are both
rejected with a `ValueError` on the synthetic table. -/
theorem C6_reserved_and_bad_fn_witness :
    ("bogus" ∉ fnAllowed) ∧
    (∃ msg, aggregate_num synthLM synthNum "taxid" "sum" "taxid" =
      .error (.valueError msg)) ∧
    aggregate_num synthLM synthNum "value" "bogus" "taxid" =
      .error (.valueError fnErrMsg) := by
  have h := C6_reserved_and_bad_fn synthLM synthNum "sum" "taxid" synthNum
    "value" "bogus" "taxid" (by decide) (by decide) (by decide) (by decide)
  exact ⟨by decide, h.1, h.2.1⟩

/-- C8: `ensure_int32` never raises on out-of-range identifiers; it maps
every identifier through the two's-complement wraparound `toInt32`, which is
the identity on values fitting in 32 bits, stays within the 32-bit range and
is congruent to the input modulo `2^32` (silent truncation), e.g.
`2^31` wraps to `-2^31`. -/
theorem C8_int32_truncation (d : NumDF) (taxid_col : String) (n m : Int)
    (h : taxid_col ∈ d.cols) (hn1 : -(2 ^ 31) ≤ n) (hn2 : n < 2 ^ 31) :
    ensure_int32_num d taxid_col = .ok ⟨d.cols, ensure_int32_rows d.rows⟩ ∧
    ensure_int32_rows d.rows = d.rows.map (fun r => (toInt32 r.1, r.2)) ∧
    toInt32 n = n ∧
    (-(2 ^ 31) ≤ toInt32 m ∧ toInt32 m < 2 ^ 31 ∧
      (toInt32 m - m) % 2 ^ 32 = 0) ∧
    toInt32 (2 ^ 31) = -(2 ^ 31) := by
  refine ⟨ensure_int32_num_ok d taxid_col h, rfl, toInt32_eq_self hn1 hn2,
    toInt32_wraps m, ?_⟩
  decide

/-- C8, witness: the cast succeeds on a concrete table, keeps `5` fixed and
wraps `2^31`. -/
theorem C8_int32_truncation_witness :
    ("taxid" ∈ (["taxid", "value"] : List String) ∧
      -(2 ^ 31) ≤ (5 : Int) ∧ (5 : Int) < 2 ^ 31) ∧
    toInt32 5 = 5 ∧ toInt32 (2 ^ 31) = -(2 ^ 31) := by
  have h := C8_int32_truncation synthNum "taxid" 5 (2 ^ 31) (by decide)
    (by decide) (by decide)
  exact ⟨⟨by decide, by decide, by decide⟩, h.2.2.1, h.2.2.2.2⟩

/-- C9: every table returned by `aggregate_num` or `aggregate_count` is
sorted by the taxid column in the engine's ascending order (nulls first). -/
theorem C9_result_sorted (lm : LMap) (d : NumDF) (column fn taxid_col : String)
    (dc : CountDF) (result_col taxid_col2 : String) :
    (∀ res, aggregate_num lm d column fn taxid_col = .ok res →
      List.Sorted (fun a b => keyLE a.1 b.1 = true) res) ∧
    (∀ res, aggregate_count lm dc result_col taxid_col2 = .ok res →
      List.Sorted (fun a b => keyLE a.1 b.1 = true) res) := by
  constructor
  · intro res h
    unfold aggregate_num at h
    split at h
    · simp at h
    · split at h
      · simp at h
      · split at h
        · simp at h
        · split at h
          · simp at h
          · split at h
            · injection h with h1
              rw [← h1]
              exact sortRows_sorted _
            · simp at h
  · intro res h
    unfold aggregate_count at h
    split at h
    · simp at h
    · split at h
      · simp at h
      · injection h with h1
        rw [← h1]
        exact sortRows_sorted _

/-- C9, witness: the sum aggregation of the synthetic tree is returned
sorted by taxid. -/
theorem C9_result_sorted_witness :
    List.Sorted (fun a b => keyLE a.1 b.1 = true)
      [(some 1, (10 : Rat)), (some 2, 5), (some 3, 5), (some 4, 2),
        (some 5, 3), (some 6, 5)] := by
  exact (C9_result_sorted synthLM synthNum "value" "sum" "taxid"
    ⟨["taxid"], [4, 5, 6]⟩ "n" "taxid").1
    [(some 1, 10), (some 2, 5), (some 3, 5), (some 4, 2), (some 5, 3),
      (some 6, 5)] (by with_unfolding_all rfl)

/-- C10: with the retain-leaves flag set and any identifier column name
other than `taxid` (and distinct from the categorical column),
`aggregate_cat` raises a column-not-found error, because the leaf rows are
selected by the original identifier name after the column has been renamed
to `taxid`; when both named columns exist in the input the error names the
identifier column itself. -/
theorem C10_keep_leaves_nondefault (lm : LMap) (d : CatDF)
    (column taxid_col : String) (hne : taxid_col ≠ "taxid")
    (hnc : taxid_col ≠ column) (hcn : column ≠ "taxid") :
    (∃ c, aggregate_cat lm d column true taxid_col =
      .error (.columnNotFound c)) ∧
    (taxid_col ∈ d.cols → column ∈ d.cols →
      aggregate_cat lm d column true taxid_col =
        .error (.columnNotFound taxid_col)) := by
  constructor
  · by_cases ht : taxid_col ∈ d.cols
    · by_cases hc : column ∈ d.cols
      · exact ⟨taxid_col,
          aggregate_cat_keep_err lm d column taxid_col ht hc hcn hne hnc⟩
      · exact ⟨column, aggregate_cat_err_col lm d column true taxid_col ht hc⟩
    · exact ⟨taxid_col,
        aggregate_cat_err_taxidcol lm d column true taxid_col ht⟩
  · intro ht hc
    exact aggregate_cat_keep_err lm d column taxid_col ht hc hcn hne hnc

/-- C10, witness: renaming the identifier column to `id` makes
`aggregate_cat` with retained leaves fail with a column-not-found error
naming `id`. -/
theorem C10_keep_leaves_nondefault_witness :
    ("id" ≠ "taxid" ∧ "id" ≠ "cat" ∧ "cat" ≠ "taxid" ∧
      "id" ∈ (["id", "cat"] : List String)) ∧
    aggregate_cat synthLM ⟨["id", "cat"], [(4, "x")]⟩ "cat" true "id" =
      .error (.columnNotFound "id") := by
  refine ⟨⟨by decide, by decide, by decide, by decide⟩, ?_⟩
  exact (C10_keep_leaves_nondefault synthLM ⟨["id", "cat"], [(4, "x")]⟩
    "cat" "id" (by decide) (by decide) (by decide)).2 (by decide) (by decide)

/-- C1: for every input table, the value `aggregate_num` assigns to a taxid
`t` is the chosen aggregation function applied to exactly the (cast) input
rows whose taxid is `t` together with those having `t` in their ancestor
list (and no row when no such input row exists), and `aggregate_count`
assigns the count of those rows; in particular on the synthetic 3-level
tree, sum gives root=10, A=5, B=5 and the leaves their own values, and the
count gives root=3, A=2, B=1 and each leaf 1. -/
theorem C1_subtree_aggregation (lm : LMap) (d : NumDF)
    (column fn taxid_col : String) (t : Int) (dc : CountDF)
    (hwf : LMWellFormed lm) (hc : column ∈ d.cols) (ht : taxid_col ∈ d.cols)
    (hcol : column ≠ "taxid") (hfn : fn ∈ fnAllowed)
    (htc : taxid_col ∈ dc.cols) :
    (aggregate_num lm d column fn taxid_col =
        .ok (numPipeline lm (aggFn fn) (ensure_int32_rows d.rows)) ∧
      lookupKey (some t)
          (numPipeline lm (aggFn fn) (ensure_int32_rows d.rows)) =
        (if (ensure_int32_rows d.rows).filter (fun r => inSubtree lm t r.1) =
            [] then none
          else some (aggFn fn (((ensure_int32_rows d.rows).filter
            (fun r => inSubtree lm t r.1)).map Prod.snd)))) ∧
    (aggregate_count lm dc "n" taxid_col =
        .ok (countPipeline lm (dc.rows.map toInt32)) ∧
      lookupKey (some t) (countPipeline lm (dc.rows.map toInt32)) =
        (if (dc.rows.map toInt32).filter (fun x => inSubtree lm t x) = []
          then none
          else some (((dc.rows.map toInt32).filter
            (fun x => inSubtree lm t x)).length))) ∧
    aggregate_num synthLM synthNum "value" "sum" "taxid" =
      .ok [(some 1, 10), (some 2, 5), (some 3, 5), (some 4, 2), (some 5, 3),
        (some 6, 5)] ∧
    aggregate_count synthLM ⟨["taxid"], [4, 5, 6]⟩ "n" "taxid" =
      .ok [(some 1, 3), (some 2, 2), (some 3, 1), (some 4, 1), (some 5, 1),
        (some 6, 1)] := by
  refine ⟨⟨aggregate_num_ok lm d column fn taxid_col hc ht hcol hfn,
      numPipeline_lookup_subtree lm hwf fn hfn (ensure_int32_rows d.rows) t⟩,
    ⟨aggregate_count_ok lm dc "n" taxid_col htc,
      countPipeline_lookup_subtree lm hwf (dc.rows.map toInt32) t⟩,
    by with_unfolding_all rfl, by decide⟩

/-- C1, witness: on the synthetic tree, node A (taxid 2) receives the sum 5
of its two leaves. -/
theorem C1_subtree_aggregation_witness :
    (LMWellFormed synthLM ∧ "value" ∈ synthNum.cols ∧
      "taxid" ∈ synthNum.cols ∧ "value" ≠ "taxid" ∧ "sum" ∈ fnAllowed) ∧
    lookupKey (some 2)
      (numPipeline synthLM (aggFn "sum") (ensure_int32_rows synthNum.rows)) =
      some 5 := by
  have h := C1_subtree_aggregation synthLM synthNum "value" "sum" "taxid" 2
    ⟨["taxid"], [4, 5, 6]⟩ synthLM_wf (by decide) (by decide) (by decide)
    (by decide) (by decide)
  refine ⟨⟨synthLM_wf, by decide, by decide, by decide, by decide⟩, ?_⟩
  rw [h.1.2]
  with_unfolding_all rfl

/-- C2, counterexample: `aggregate_cat` omits the self-union step, so an
input row whose taxid never occurs as an ancestor is absent from the
result: with the single input row (4, x) the result holds only taxids 2 and
1, and 4 (an input taxid) is not among the result's taxids, refuting the
claim for the `aggregate_cat` entry point. -/
theorem C2_cex_cat_drops_input :
    aggregate_cat synthLM ⟨["taxid", "cat"], [(4, "x")]⟩ "cat" false "taxid" =
      .ok [⟨some 2, .dist [("x", 1)], "count"⟩,
        ⟨some 1, .dist [("x", 1)], "count"⟩] ∧
    some 4 ∉ ([⟨some 2, .dist [("x", 1)], "count"⟩,
      ⟨some 1, .dist [("x", 1)], "count"⟩] : List CatRow).map CatRow.taxid := by
  exact ⟨by decide, by decide⟩

/-- C2, amended: for `aggregate_num` and `aggregate_count` every (cast)
input taxid appears among the result's taxids (the self rows guarantee a
group for it); `aggregate_cat` does not have this property. -/
theorem C2_taxid_superset (lm : LMap) (d : NumDF)
    (column fn taxid_col : String) (dc : CountDF) (hc : column ∈ d.cols)
    (ht : taxid_col ∈ d.cols) (hcol : column ≠ "taxid")
    (hfn : fn ∈ fnAllowed) (htc : taxid_col ∈ dc.cols) :
    (aggregate_num lm d column fn taxid_col =
        .ok (numPipeline lm (aggFn fn) (ensure_int32_rows d.rows)) ∧
      ∀ r ∈ d.rows, some (toInt32 r.1) ∈
        (numPipeline lm (aggFn fn) (ensure_int32_rows d.rows)).map Prod.fst) ∧
    (aggregate_count lm dc "n" taxid_col =
        .ok (countPipeline lm (dc.rows.map toInt32)) ∧
      ∀ x ∈ dc.rows, some (toInt32 x) ∈
        (countPipeline lm (dc.rows.map toInt32)).map Prod.fst) := by
  refine ⟨⟨aggregate_num_ok lm d column fn taxid_col hc ht hcol hfn, ?_⟩,
    ⟨aggregate_count_ok lm dc "n" taxid_col htc, ?_⟩⟩
  · intro r hr
    have hm : (toInt32 r.1, r.2) ∈ ensure_int32_rows d.rows :=
      List.mem_map.mpr ⟨r, hr, rfl⟩
    exact some_mem_keys_pipeline lm (aggFn fn) (ensure_int32_rows d.rows)
      (toInt32 r.1) r.2 hm
  · intro x hx
    have hm : (toInt32 x, toInt32 x) ∈
        (dc.rows.map toInt32).map (fun y => (y, y)) :=
      List.mem_map.mpr ⟨toInt32 x, List.mem_map.mpr ⟨x, hx, rfl⟩, rfl⟩
    exact some_mem_keys_pipeline lm List.length
      ((dc.rows.map toInt32).map (fun y => (y, y))) (toInt32 x) (toInt32 x) hm

/-- C2, witness: the input taxid 4 appears among the taxids of the numeric
aggregation of the synthetic tree. -/
theorem C2_taxid_superset_witness :
    ("value" ∈ synthNum.cols ∧ ((4 : Int), (2 : Rat)) ∈ synthNum.rows) ∧
    some (toInt32 4) ∈ (numPipeline synthLM (aggFn "sum")
      (ensure_int32_rows synthNum.rows)).map Prod.fst := by
  have h := C2_taxid_superset synthLM synthNum "value" "sum" "taxid"
    ⟨["taxid"], [4, 5, 6]⟩ (by decide) (by decide) (by decide) (by decide)
    (by decide)
  exact ⟨⟨by decide, by decide⟩, h.1.2 (4, 2) (by decide)⟩

/-- C7, counterexample: a row whose taxid has no ancestors is not a no-op
for the expansion; with the single input row (1, 7) — the root, whose
ancestor list is empty — the result of `aggregate_num` contains a row with
a null taxid, refuting the claim that no null-taxid row appears. -/
theorem C7_cex_null_row :
    aggregate_num synthLM ⟨["taxid", "value"], [(1, 7)]⟩ "value" "sum"
      "taxid" = .ok [(none, 7), (some 1, 7)] ∧
    none ∈ ([((none : Option Int), (7 : Rat)), (some 1, 7)]).map Prod.fst := by
  exact ⟨by with_unfolding_all rfl, by decide⟩

/-- C7, amended: a row with no ancestors contributes a single null-key
expansion row, so the results of `aggregate_num` and `aggregate_count`
contain a null-taxid row aggregating exactly the rows with no ancestors,
and contain none precisely when every input row has ancestors. -/
theorem C7_null_expansion (lm : LMap) (fn : String) (hfn : fn ∈ fnAllowed)
    (rows : List (Int × Rat)) (taxids : List Int) :
    (lookupKey none (numPipeline lm (aggFn fn) rows) =
      if rows.filter (fun r => noAncestors lm r.1) = [] then none
      else some (aggFn fn
        ((rows.filter (fun r => noAncestors lm r.1)).map Prod.snd))) ∧
    (lookupKey none (countPipeline lm taxids) =
      if taxids.filter (fun x => noAncestors lm x) = [] then none
      else some ((taxids.filter (fun x => noAncestors lm x)).length)) :=
  ⟨numPipeline_lookup_null lm fn hfn rows, countPipeline_lookup_null lm taxids⟩

/-- C7, witness: with the root row (1, 7) as input, the null-taxid group
carries the value 7. -/
theorem C7_null_expansion_witness :
    ("sum" ∈ fnAllowed) ∧
    lookupKey none (numPipeline synthLM (aggFn "sum") [(1, 7)]) = some 7 := by
  have h := C7_null_expansion synthLM "sum" (by decide) [(1, 7)] [1]
  refine ⟨by decide, ?_⟩
  rw [h.1]
  with_unfolding_all rfl

/-- C3, counterexample: `aggregate_cat` has no self-union step, so a row
whose taxid is `t` is not counted in `t`'s own distribution: with the
single input row (2, x) the result carries a distribution only for the
ancestor taxid 1, and no row for taxid 2 at all. -/
theorem C3_cex_self_not_counted :
    aggregate_cat synthLM ⟨["taxid", "cat"], [(2, "x")]⟩ "cat" false
      "taxid" = .ok [⟨some 1, .dist [("x", 1)], "count"⟩] ∧
    some 2 ∉ ([(⟨some 1, .dist [("x", 1)], "count"⟩ : CatRow)]).map
      CatRow.taxid := by
  exact ⟨by decide, by decide⟩

/-- C3, amended: the per-category counts `aggregate_cat` assigns to a taxid
`t` cover exactly the observation rows of `t`'s strict descendants (the
rows having `t` in their ancestor list); a row whose taxid is `t` is not
counted in `t`'s own distribution, and `t` appears among the count rows
precisely when it has strict-descendant observation rows. -/
theorem C3_cat_strict_descendants (lm : LMap) (d : CatDF) (column : String)
    (t : Int) (hwf : LMWellFormed lm) (ht : "taxid" ∈ d.cols)
    (hc : column ∈ d.cols) (hcn : column ≠ "taxid") :
    aggregate_cat lm d column false "taxid" =
      .ok (catCountRows lm (ensure_int32_rows d.rows)) ∧
    (some t ∈ (catCountRows lm (ensure_int32_rows d.rows)).map CatRow.taxid ↔
      (ensure_int32_rows d.rows).filter
        (fun r => decide (t ∈ ascList lm r.1)) ≠ []) ∧
    (∀ row ∈ catCountRows lm (ensure_int32_rows d.rows),
      row.taxid = some t → row.value =
        .dist ((catLevels (ensure_int32_rows d.rows)).map (fun c =>
          (c, (((ensure_int32_rows d.rows).filter
            (fun r => decide (t ∈ ascList lm r.1))).map Prod.snd).count c)))) ∧
    (∀ row ∈ catCountRows lm (ensure_int32_rows d.rows),
      row.marker = "count") :=
  ⟨aggregate_cat_noleaves lm d column "taxid" ht hc hcn,
    mem_catCountRows_taxid_iff lm hwf (ensure_int32_rows d.rows) t,
    catCountRows_value_at lm hwf (ensure_int32_rows d.rows) t,
    catCountRows_marker lm (ensure_int32_rows d.rows)⟩

/-- C3, witness: with leaf rows (4, x) and (5, y), taxid 2 (their common
parent) appears among the count rows, with the characterization
instantiated at the synthetic tree. -/
theorem C3_cat_strict_descendants_witness :
    (LMWellFormed synthLM ∧ "cat" ≠ "taxid") ∧
    aggregate_cat synthLM ⟨["taxid", "cat"], [(4, "x"), (5, "y")]⟩ "cat"
      false "taxid" = .ok (catCountRows synthLM
        (ensure_int32_rows [((4 : Int), "x"), (5, "y")])) ∧
    (some 2 ∈ (catCountRows synthLM (ensure_int32_rows
        [((4 : Int), "x"), (5, "y")])).map CatRow.taxid ↔
      (ensure_int32_rows [((4 : Int), "x"), (5, "y")]).filter
        (fun r => decide ((2 : Int) ∈ ascList synthLM r.1)) ≠ []) := by
  have h := C3_cat_strict_descendants synthLM
    ⟨["taxid", "cat"], [(4, "x"), (5, "y")]⟩ "cat" 2 synthLM_wf (by decide)
    (by decide) (by decide)
  exact ⟨⟨synthLM_wf, by decide⟩, h.1, h.2.1⟩

/-- C4, counterexample: with the retain-leaves flag set and the identifier
column named `id` rather than `taxid`, `aggregate_cat` raises a
column-not-found error instead of returning any table, refuting the claim
for arbitrary identifier column names. -/
theorem C4_cex_nondefault_idcol :
    aggregate_cat synthLM ⟨["id", "cat"], [(4, "x")]⟩ "cat" true "id" =
      .error (.columnNotFound "id") := by
  decide

/-- C4, amended: with the default identifier column name `taxid`,
`aggregate_cat` with the retain-leaves flag returns the `count`-tagged
aggregated rows followed by the `leaf`-tagged raw rows, whose (taxid,
category) values are exactly the original input rows' values (identifiers
assumed to fit in 32 bits, per the module's contract). -/
theorem C4_keep_leaves (lm : LMap) (d : CatDF) (column : String)
    (ht : "taxid" ∈ d.cols) (hc : column ∈ d.cols) (hcn : column ≠ "taxid")
    (hrows : d.rows ≠ [])
    (hrange : ∀ r ∈ d.rows, -(2 ^ 31) ≤ r.1 ∧ r.1 < 2 ^ 31) :
    aggregate_cat lm d column true "taxid" =
      .ok (catCountRows lm d.rows ++
        d.rows.map (fun r => ⟨some r.1, .cat r.2, "leaf"⟩)) ∧
    (∃ row ∈ catCountRows lm d.rows ++
        d.rows.map (fun r => (⟨some r.1, .cat r.2, "leaf"⟩ : CatRow)),
      row.marker = "count") ∧
    (∃ row ∈ catCountRows lm d.rows ++
        d.rows.map (fun r => (⟨some r.1, .cat r.2, "leaf"⟩ : CatRow)),
      row.marker = "leaf") ∧
    (d.rows.map (fun r => (⟨some r.1, .cat r.2, "leaf"⟩ : CatRow))).map
        (fun row => (row.taxid, row.value)) =
      d.rows.map (fun r => (some r.1, CatVal.cat r.2)) := by
  have hid : ensure_int32_rows d.rows = d.rows :=
    ensure_int32_rows_id d.rows hrange
  refine ⟨?_, ?_, ?_, ?_⟩
  · have h := aggregate_cat_keep_default lm d column ht hc hcn
    rw [hid] at h
    exact h
  · obtain ⟨row, hrow⟩ := List.exists_mem_of_ne_nil _
      (catCountRows_ne_nil lm d.rows hrows)
    exact ⟨row, List.mem_append_left _ hrow,
      catCountRows_marker lm d.rows row hrow⟩
  · obtain ⟨r, hr⟩ := List.exists_mem_of_ne_nil _ hrows
    exact ⟨⟨some r.1, .cat r.2, "leaf"⟩,
      List.mem_append_right _ (List.mem_map.mpr ⟨r, hr, rfl⟩), rfl⟩
  · rw [List.map_map]
    rfl

/-- C4, witness: on a one-row table with the default identifier column, the
retained output is the count rows followed by the single leaf row. -/
theorem C4_keep_leaves_witness :
    ("taxid" ∈ (["taxid", "cat"] : List String) ∧
      (∀ r ∈ ([((4 : Int), "x")] : List (Int × String)),
        -(2 ^ 31) ≤ r.1 ∧ r.1 < 2 ^ 31)) ∧
    aggregate_cat synthLM ⟨["taxid", "cat"], [(4, "x")]⟩ "cat" true "taxid" =
      .ok (catCountRows synthLM [((4 : Int), "x")] ++
        [((4 : Int), "x")].map (fun r => ⟨some r.1, .cat r.2, "leaf"⟩)) := by
  have h := C4_keep_leaves synthLM ⟨["taxid", "cat"], [(4, "x")]⟩ "cat"
    (by decide) (by decide) (by decide) (by decide) (by decide)
  exact ⟨⟨by decide, by decide⟩, h.1⟩
